import Mathlib

/-!
Shallow embedding of the three record-keeping utilities (birthday registry,
car registry, library catalog) from the repository: src/birthday/models.py,
src/birthday/storage.py, src/car/models.py, src/car/storage.py,
src/library/models.py, src/library/storage.py.

Conventions of the embedding:
* Python ints are `Int`; Python `%` on a positive modulus agrees with `Int.emod`.
* Python strings are `String`; Python string comparison (by code point) is the
  `LinearOrder String` order; `str.lower` is modelled by `lowerStr` (per-character
  lowercasing, exact on ASCII).
* `list.sort(key=...)` (a stable sort) is modelled by `List.insertionSort` with the
  non-strict key preorder, which is likewise stable.
* Raising an exception is modelled by `Except`/`Option`; a mutating method is a
  function from the old collection state to the pair (new state, outcome); on an
  exception path the state component is the unchanged input, because in the source
  the assignment to the collection field is not reached on those paths.
* The tagged XML file is modelled by `FileInput`: an absent file, a file that is not
  well-formed markup (with the parser's message), or a parsed document given as the
  list of root children (tag and child-field association list).  Numeric fields are
  written with `intToDecimal` (Python `str`) and read with `decimalToInt?`
  (Python `int`, which raises `ValueError` exactly where `decimalToInt?` is `none`).
-/

/-! ### Decimal rendering and parsing of integers (Python `str` and `int`) -/

/-- The decimal digit characters of `n`, most significant first (Python `str(n)` for `n > 0`). -/
def natToDecimalChars (n : Nat) : List Char :=
  ((Nat.digits 10 n).reverse).map (fun d => Char.ofNat (48 + d))

/-- Python `str(n)` for a natural number. -/
def natToDecimal (n : Nat) : String :=
  if n = 0 then "0" else ⟨natToDecimalChars n⟩

/-- Python `str(n)` for an integer. -/
def intToDecimal (n : Int) : String :=
  if n < 0 then "-" ++ natToDecimal n.natAbs else natToDecimal n.toNat

/-- Parse an unsigned decimal numeral: `none` models a `ValueError` from `int()`. -/
def charsToNat? (cs : List Char) : Option Nat :=
  if cs ≠ [] ∧ cs.all Char.isDigit then
    some (cs.foldl (fun a c => 10 * a + (c.toNat - 48)) 0)
  else none

/-- Python `int(s)` on a (possibly sign-prefixed) decimal string; `none` models
`ValueError`. -/
def decimalToInt? (s : String) : Option Int :=
  if s.data.head? = some '-' then (charsToNat? s.data.tail).map (fun v => -(v : Int))
  else (charsToNat? s.data).map (fun v => (v : Int))

theorem digit_char_toNat {d : Nat} (hd : d < 10) : (Char.ofNat (48 + d)).toNat = 48 + d := by
  interval_cases d <;> decide

theorem digit_char_isDigit {d : Nat} (hd : d < 10) : (Char.ofNat (48 + d)).isDigit = true := by
  interval_cases d <;> decide

theorem digit_char_ne_dash {d : Nat} (hd : d < 10) : Char.ofNat (48 + d) ≠ '-' := by
  interval_cases d <;> decide

theorem foldr_eq_ofDigits (l : List Nat) :
    l.foldr (fun d a => 10 * a + d) 0 = Nat.ofDigits 10 l := by
  induction l with
  | nil => simp [Nat.ofDigits]
  | cons d L ih =>
      simp only [List.foldr_cons, ih, Nat.ofDigits_cons]
      ring

theorem charsToNat?_natToDecimalChars {n : Nat} (hn : n ≠ 0) :
    charsToNat? (natToDecimalChars n) = some n := by
  have hne : natToDecimalChars n ≠ [] := by
    simp [natToDecimalChars, Nat.digits_ne_nil_iff_ne_zero, hn]
  have hdig : (natToDecimalChars n).all Char.isDigit = true := by
    rw [List.all_eq_true]
    intro c hc
    rw [natToDecimalChars, List.mem_map] at hc
    obtain ⟨d, hd, rfl⟩ := hc
    rw [List.mem_reverse] at hd
    exact digit_char_isDigit (Nat.digits_lt_base (by norm_num) hd)
  rw [charsToNat?, if_pos ⟨hne, hdig⟩]
  congr 1
  rw [natToDecimalChars, List.foldl_map]
  rw [List.foldl_ext (g := fun a d => 10 * a + d)]
  · rw [List.foldl_reverse, foldr_eq_ofDigits, Nat.ofDigits_digits]
  · intro a d hd
    rw [List.mem_reverse] at hd
    rw [digit_char_toNat (Nat.digits_lt_base (by norm_num) hd)]
    omega

theorem decimalToInt?_intToDecimal {n : Int} (hn : 0 ≤ n) :
    decimalToInt? (intToDecimal n) = some n := by
  rw [intToDecimal, if_neg (by omega)]
  by_cases h0 : n.toNat = 0
  · have hn0 : n = 0 := by omega
    subst hn0
    decide
  · rw [natToDecimal, if_neg h0]
    obtain ⟨c, cs, hcons⟩ := List.exists_cons_of_ne_nil
      (show natToDecimalChars n.toNat ≠ [] by
        simp [natToDecimalChars, Nat.digits_ne_nil_iff_ne_zero, h0])
    have hcmem : c ∈ natToDecimalChars n.toNat := by rw [hcons]; exact List.mem_cons_self c cs
    have hcd : c ≠ '-' := by
      rw [natToDecimalChars, List.mem_map] at hcmem
      obtain ⟨d, hd, rfl⟩ := hcmem
      rw [List.mem_reverse] at hd
      exact digit_char_ne_dash (Nat.digits_lt_base (by norm_num) hd)
    have hdata : (String.mk (natToDecimalChars n.toNat)).data = natToDecimalChars n.toNat := rfl
    rw [decimalToInt?, hdata, if_neg (by rw [hcons]; simpa using hcd)]
    rw [charsToNat?_natToDecimalChars h0]
    simp [Int.toNat_of_nonneg hn]

/-! ### Tagged-file model (xml.etree.ElementTree as used by the three storage modules) -/

/-- A top-level entry of the tagged file: the association list of its child elements,
tag paired with text.  `Entry.find?` models `element.find(tag)` followed by `.text`:
`none` is a missing child (whose `.text` raises `AttributeError` in the source). -/
abbrev Entry := List (String × String)

/-- Model of `element.find(tag).text`; `ET.Element.find` returns the first match. -/
def entryFind? (e : Entry) (tag : String) : Option String :=
  (e.find? (fun f => f.1 == tag)).map (fun f => f.2)

/-- The children of the document root: element tag paired with its fields. -/
abbrev Doc := List (String × Entry)

/-- Model of `root.findall(tag)`. -/
def findAll (root : Doc) (tag : String) : List Entry :=
  (root.filter (fun c => c.1 == tag)).map (fun c => c.2)

/-- What a load finds at a path: no file (`FileNotFoundError`), a file that is not
well-formed markup (`ET.ParseError` with the parser's message), or a parsed document
(root tag and root children). -/
inductive FileInput where
  | absent (filename : String)
  | malformed (filename : String) (cause : String)
  | doc (filename : String) (rootTag : String) (root : Doc)
deriving DecidableEq

/-- Python `str.lower`, modelled per character (exact on ASCII, which is all the
sort keys rely on). -/
def lowerStr (s : String) : String := ⟨s.data.map Char.toLower⟩

/-! ### Birthday domain: src/birthday/models.py and src/birthday/storage.py -/

/-- The exception classes of src/birthday/models.py that the storage layer can see,
with the fields each class stores. -/
inductive BError where
  | invalidMonth (month : Int) (message : String)
  | invalidDate (day : Int) (month : Int) (year : Int) (message : String)
  | dataFormat (filename : String) (message : String)
deriving DecidableEq

/-- The frozen dataclass `Person` of src/birthday/models.py. -/
structure Person where
  last_name : String
  first_name : String
  phone : String
  day : Int
  month : Int
  year : Int
deriving DecidableEq

/-- `Person._get_days_in_month` of src/birthday/models.py. -/
def daysInMonth (month year : Int) : Int :=
  if month = 2 then
    if (year % 4 = 0 ∧ year % 100 ≠ 0) ∨ year % 400 = 0 then 29 else 28
  else if month = 4 ∨ month = 6 ∨ month = 9 ∨ month = 11 then 30
  else 31

/-- `Person.__post_init__` of src/birthday/models.py: construction of a `Person`,
validating year range, then month range, then day against `daysInMonth`.
`currentYear` stands for `datetime.now().year`. -/
def mkPerson (currentYear : Int) (last_name first_name phone : String)
    (day month year : Int) : Except BError Person :=
  if year < 1900 ∨ year > currentYear then
    .error (.invalidDate day month year
      ("Год должен быть в диапазоне 1900-" ++ toString currentYear))
  else if month < 1 ∨ month > 12 then
    .error (.invalidMonth month "Недопустимый номер месяца")
  else if day < 1 ∨ day > daysInMonth month year then
    .error (.invalidDate day month year
      ("День должен быть в диапазоне 1-" ++ toString (daysInMonth month year) ++
        " для месяца " ++ toString month))
  else .ok ⟨last_name, first_name, phone, day, month, year⟩

/-- The key preorder of `self.people.sort(key=lambda p: (p.last_name.lower(),
p.first_name.lower()))` in src/birthday/storage.py. -/
def personLE (p q : Person) : Prop :=
  lowerStr p.last_name < lowerStr q.last_name ∨
    (lowerStr p.last_name = lowerStr q.last_name ∧
      lowerStr p.first_name ≤ lowerStr q.first_name)

instance : DecidableRel personLE := fun p q =>
  inferInstanceAs (Decidable (_ ∨ _ ∧ _))

instance : IsTotal Person personLE where
  total p q := by
    rcases lt_trichotomy (lowerStr p.last_name) (lowerStr q.last_name) with h | h | h
    · exact Or.inl (Or.inl h)
    · rcases le_total (lowerStr p.first_name) (lowerStr q.first_name) with h2 | h2
      · exact Or.inl (Or.inr ⟨h, h2⟩)
      · exact Or.inr (Or.inr ⟨h.symm, h2⟩)
    · exact Or.inr (Or.inl h)

instance : IsTrans Person personLE where
  trans p q u hpq hqu := by
    rcases hpq with h1 | ⟨h1, h1f⟩ <;> rcases hqu with h2 | ⟨h2, h2f⟩
    · exact Or.inl (h1.trans h2)
    · exact Or.inl (h2 ▸ h1)
    · exact Or.inl (h1 ▸ h2)
    · exact Or.inr ⟨h1.trans h2, h1f.trans h2f⟩

/-- The key preorder of `result.sort(key=lambda p: p.day)` in
`BirthdayBook.filter_by_month`. -/
def personDayLE (p q : Person) : Prop := p.day ≤ q.day

instance : DecidableRel personDayLE := fun p q => inferInstanceAs (Decidable (_ ≤ _))

instance : IsTotal Person personDayLE where
  total p q := le_total p.day q.day

instance : IsTrans Person personDayLE where
  trans _ _ _ h1 h2 := le_trans h1 h2

/-- The stable key sort `self.people.sort(key=...)` on a person list. -/
def sortPeople (l : List Person) : List Person := l.insertionSort personLE

/-- The dataclass `BirthdayBook` of src/birthday/storage.py. -/
structure BirthdayBook where
  people : List Person
deriving DecidableEq

/-- `BirthdayBook.add`: pre-checks the month, constructs the `Person`, appends and
re-sorts; a raised exception leaves `self.people` untouched and propagates (`some e`). -/
def BirthdayBook.add (currentYear : Int) (book : BirthdayBook)
    (last_name first_name phone : String) (day month year : Int) :
    BirthdayBook × Option BError :=
  if month < 1 ∨ month > 12 then
    (book, some (.invalidMonth month "Недопустимый номер месяца"))
  else
    match mkPerson currentYear last_name first_name phone day month year with
    | .error e => (book, some e)
    | .ok p => (⟨sortPeople (book.people ++ [p])⟩, none)

/-- `BirthdayBook.filter_by_month`: month-range check, then filter by
`birthday_in_month`, then re-sort the result (not `self.people`) by day. -/
def BirthdayBook.filter_by_month (book : BirthdayBook) (month : Int) :
    Except BError (List Person) :=
  if month < 1 ∨ month > 12 then
    .error (.invalidMonth month "Недопустимый номер месяца")
  else
    .ok ((book.people.filter (fun p => p.month == month)).insertionSort personDayLE)

/-- One `person` entry of the loop in `BirthdayBook.load`: extract the six child
fields (a missing one raises `AttributeError`), parse the numeric ones (`ValueError`),
construct the `Person`; any of `AttributeError`, `ValueError`, `InvalidDateError`,
`InvalidMonthError` makes the entry `none` (skipped and counted by the caller). -/
def loadPersonEntry (currentYear : Int) (e : Entry) : Option Person :=
  match entryFind? e "last_name", entryFind? e "first_name", entryFind? e "phone",
      entryFind? e "day", entryFind? e "month", entryFind? e "year" with
  | some ln, some fn, some ph, some ds, some ms, some ys =>
    match decimalToInt? ds, decimalToInt? ms, decimalToInt? ys with
    | some d, some m, some y => (mkPerson currentYear ln fn ph d m y).toOption
    | _, _, _ => none
  | _, _, _, _, _, _ => none

/-- `BirthdayBook.load` of src/birthday/storage.py.  Structural failures raise
`DataFormatError` before `self.people` is assigned; otherwise the collection is
replaced by the per-entry successes, re-sorted, and the number of skipped entries
(the `errors` counter the method reports) is returned. -/
def BirthdayBook.load (currentYear : Int) (book : BirthdayBook) (file : FileInput) :
    BirthdayBook × Except BError Nat :=
  match file with
  | .absent fn => (book, .error (.dataFormat fn ("Файл не найден: " ++ fn)))
  | .malformed fn cause =>
      (book, .error (.dataFormat fn ("Ошибка парсинга XML файла " ++ fn ++ ": " ++ cause)))
  | .doc _ _ root =>
      let entries := findAll root "person"
      (⟨sortPeople (entries.filterMap (loadPersonEntry currentYear))⟩,
        .ok (entries.countP (fun e => (loadPersonEntry currentYear e).isNone)))

/-- `Person.toEntry` is what `BirthdayBook.save` writes for one person: each scalar
field as a named child in declaration order. -/
def Person.toEntry (p : Person) : Entry :=
  [("last_name", p.last_name), ("first_name", p.first_name), ("phone", p.phone),
    ("day", intToDecimal p.day), ("month", intToDecimal p.month),
    ("year", intToDecimal p.year)]

/-- `BirthdayBook.save` (success path): the document written to `filename`. -/
def BirthdayBook.save (book : BirthdayBook) (filename : String) : FileInput :=
  .doc filename "birthdays" (book.people.map (fun p => ("person", p.toEntry)))

/-- The `BirthdayBook` states reachable from a fresh empty book by any sequence of
`add` and `load` calls (failing calls leave the state unchanged, so they are
reachable too). -/
inductive BirthdayReach : BirthdayBook → Prop where
  | empty : BirthdayReach ⟨[]⟩
  | add (cy : Int) (b : BirthdayBook) (ln fn ph : String) (d m y : Int) :
      BirthdayReach b → BirthdayReach (BirthdayBook.add cy b ln fn ph d m y).1
  | load (cy : Int) (b : BirthdayBook) (file : FileInput) :
      BirthdayReach b → BirthdayReach (BirthdayBook.load cy b file).1

/-! ### Car domain: src/car/models.py and src/car/storage.py -/

/-- The exception classes of src/car/models.py that the storage layer can see.
`SpeedLimitExceededError` stores the current speed, the limit and the car info
string (its message is derived from the limit). -/
inductive CError where
  | invalidSpeed (speed : Int) (message : String)
  | speedLimitExceeded (current_speed : Int) (max_speed : Int) (car_info : String)
  | dataFormat (filename : String) (message : String)
deriving DecidableEq

/-- The frozen dataclass `Car` of src/car/models.py. -/
structure Car where
  brand : String
  model : String
  license_plate : String
  max_speed : Int
  current_speed : Int
deriving DecidableEq

/-- `Car.__post_init__` of src/car/models.py: max speed positivity, then current
speed non-negativity, then the speed-limit check. -/
def mkCar (brand model license_plate : String) (max_speed current_speed : Int) :
    Except CError Car :=
  if max_speed ≤ 0 then
    .error (.invalidSpeed max_speed "Максимальная скорость должна быть положительной")
  else if current_speed < 0 then
    .error (.invalidSpeed current_speed "Текущая скорость не может быть отрицательной")
  else if current_speed > max_speed then
    .error (.speedLimitExceeded current_speed max_speed
      (brand ++ " " ++ model ++ " (" ++ license_plate ++ ")"))
  else .ok ⟨brand, model, license_plate, max_speed, current_speed⟩

/-- `Car.speed_status` of src/car/models.py. -/
def Car.speed_status (c : Car) : String :=
  if c.current_speed > c.max_speed then "ПРЕВЫШЕНИЕ"
  else if c.current_speed = 0 then "ОСТАНОВЛЕН"
  else "В ПРЕДЕЛАХ"

/-- `Car.is_speeding` of src/car/models.py. -/
def Car.is_speeding (c : Car) : Bool := c.current_speed > c.max_speed

/-- The key preorder of `self.cars.sort(key=lambda car: (car.brand, car.model))`
in src/car/storage.py (case-sensitive, unlike the birthday book's key). -/
def carLE (c d : Car) : Prop :=
  c.brand < d.brand ∨ (c.brand = d.brand ∧ c.model ≤ d.model)

instance : DecidableRel carLE := fun c d =>
  inferInstanceAs (Decidable (_ ∨ _ ∧ _))

instance : IsTotal Car carLE where
  total c d := by
    rcases lt_trichotomy c.brand d.brand with h | h | h
    · exact Or.inl (Or.inl h)
    · rcases le_total c.model d.model with h2 | h2
      · exact Or.inl (Or.inr ⟨h, h2⟩)
      · exact Or.inr (Or.inr ⟨h.symm, h2⟩)
    · exact Or.inr (Or.inl h)

instance : IsTrans Car carLE where
  trans c d u hcd hdu := by
    rcases hcd with h1 | ⟨h1, h1m⟩ <;> rcases hdu with h2 | ⟨h2, h2m⟩
    · exact Or.inl (h1.trans h2)
    · exact Or.inl (h2 ▸ h1)
    · exact Or.inl (h1 ▸ h2)
    · exact Or.inr ⟨h1.trans h2, h1m.trans h2m⟩

/-- The descending key preorder of `result.sort(key=lambda car: car.current_speed,
reverse=True)` in `CarRegistry.select_speeding` (Python's `reverse=True` is stable). -/
def carSpeedGE (c d : Car) : Prop := d.current_speed ≤ c.current_speed

instance : DecidableRel carSpeedGE := fun c d => inferInstanceAs (Decidable (_ ≤ _))

instance : IsTotal Car carSpeedGE where
  total c d := le_total d.current_speed c.current_speed

instance : IsTrans Car carSpeedGE where
  trans _ _ _ h1 h2 := le_trans h2 h1

/-- The stable key sort `self.cars.sort(key=...)` on a car list. -/
def sortCars (l : List Car) : List Car := l.insertionSort carLE

/-- The dataclass `CarRegistry` of src/car/storage.py. -/
structure CarRegistry where
  cars : List Car
deriving DecidableEq

/-- `CarRegistry.add`: constructs the `Car`, appends and re-sorts; a raised
exception leaves `self.cars` untouched and propagates. -/
def CarRegistry.add (reg : CarRegistry) (brand model license_plate : String)
    (max_speed current_speed : Int) : CarRegistry × Option CError :=
  match mkCar brand model license_plate max_speed current_speed with
  | .error e => (reg, some e)
  | .ok c => (⟨sortCars (reg.cars ++ [c])⟩, none)

/-- `CarRegistry.select_speeding`: the speeding cars, re-sorted by current speed
descending (the registry's own list is not assigned). -/
def CarRegistry.select_speeding (reg : CarRegistry) : List Car :=
  (reg.cars.filter Car.is_speeding).insertionSort carSpeedGE

/-- One `car` entry of the loop in `CarRegistry.load`; `AttributeError`,
`ValueError`, `InvalidSpeedError` and `SpeedLimitExceededError` all make the entry
`none` (skipped and counted by the caller). -/
def loadCarEntry (e : Entry) : Option Car :=
  match entryFind? e "brand", entryFind? e "model", entryFind? e "license_plate",
      entryFind? e "max_speed", entryFind? e "current_speed" with
  | some b, some m, some lp, some mss, some css =>
    match decimalToInt? mss, decimalToInt? css with
    | some ms, some cs => (mkCar b m lp ms cs).toOption
    | _, _ => none
  | _, _, _, _, _ => none

/-- `CarRegistry.load` of src/car/storage.py, analogous to `BirthdayBook.load`. -/
def CarRegistry.load (reg : CarRegistry) (file : FileInput) :
    CarRegistry × Except CError Nat :=
  match file with
  | .absent fn => (reg, .error (.dataFormat fn ("Файл не найден: " ++ fn)))
  | .malformed fn cause =>
      (reg, .error (.dataFormat fn ("Ошибка парсинга XML файла " ++ fn ++ ": " ++ cause)))
  | .doc _ _ root =>
      let entries := findAll root "car"
      (⟨sortCars (entries.filterMap loadCarEntry)⟩,
        .ok (entries.countP (fun e => (loadCarEntry e).isNone)))

/-- What `CarRegistry.save` writes for one car. -/
def Car.toEntry (c : Car) : Entry :=
  [("brand", c.brand), ("model", c.model), ("license_plate", c.license_plate),
    ("max_speed", intToDecimal c.max_speed), ("current_speed", intToDecimal c.current_speed)]

/-- `CarRegistry.save` (success path): the document written to `filename`. -/
def CarRegistry.save (reg : CarRegistry) (filename : String) : FileInput :=
  .doc filename "cars" (reg.cars.map (fun c => ("car", c.toEntry)))

/-- The `CarRegistry` states reachable from a fresh empty registry by any sequence
of `add` and `load` calls. -/
inductive CarReach : CarRegistry → Prop where
  | empty : CarReach ⟨[]⟩
  | add (r : CarRegistry) (b m lp : String) (ms cs : Int) :
      CarReach r → CarReach (CarRegistry.add r b m lp ms cs).1
  | load (r : CarRegistry) (file : FileInput) :
      CarReach r → CarReach (CarRegistry.load r file).1

/-! ### Library domain: src/library/models.py and src/library/storage.py -/

/-- The exception classes of src/library/models.py that the storage layer can see.
`InvalidInputError` is only ever raised with an integer offending value. -/
inductive LError where
  | invalidInput (value : Int) (message : String)
  | dataFormat (filename : String) (message : String)
deriving DecidableEq

/-- The frozen dataclass `Book` of src/library/models.py. -/
structure Book where
  title : String
  author : String
  year : Int
  genre : String
  pages : Int
deriving DecidableEq

/-- The fixed literal `current_year = 2024` in `Book.__post_init__`
(unlike the birthday domain, not `datetime.now().year`). -/
def libraryCurrentYear : Int := 2024

/-- `Book.__post_init__` of src/library/models.py: year range, then page positivity. -/
def mkBook (title author : String) (year : Int) (genre : String) (pages : Int) :
    Except LError Book :=
  if year < 0 ∨ year > libraryCurrentYear then
    .error (.invalidInput year
      ("Год издания должен быть в диапазоне 0-" ++ toString libraryCurrentYear))
  else if pages ≤ 0 then
    .error (.invalidInput pages "Количество страниц должно быть положительным")
  else .ok ⟨title, author, year, genre, pages⟩

/-- The key preorder of `self.books.sort(key=lambda book: book.title)` in
src/library/storage.py (case-sensitive). -/
def bookLE (a b : Book) : Prop := a.title ≤ b.title

instance : DecidableRel bookLE := fun a b => inferInstanceAs (Decidable (_ ≤ _))

instance : IsTotal Book bookLE where
  total a b := le_total a.title b.title

instance : IsTrans Book bookLE where
  trans _ _ _ h1 h2 := le_trans h1 h2

/-- The stable key sort `self.books.sort(key=...)` on a book list. -/
def sortBooks (l : List Book) : List Book := l.insertionSort bookLE

/-- The dataclass `Library` of src/library/storage.py. -/
structure Library where
  books : List Book
deriving DecidableEq

/-- `Library.add`: constructs the `Book`, appends and re-sorts; a raised
exception leaves `self.books` untouched and propagates. -/
def Library.add (lib : Library) (title author : String) (year : Int)
    (genre : String) (pages : Int) : Library × Option LError :=
  match mkBook title author year genre pages with
  | .error e => (lib, some e)
  | .ok b => (⟨sortBooks (lib.books ++ [b])⟩, none)

/-- The field extraction and numeric parsing of one `book` entry in `Library.load`:
exactly the part whose failures (`AttributeError`, `ValueError`) the loop skips. -/
def parseBookFields (e : Entry) : Option (String × String × Int × String × Int) :=
  match entryFind? e "title", entryFind? e "author", entryFind? e "year",
      entryFind? e "genre", entryFind? e "pages" with
  | some t, some a, some ys, some g, some ps =>
    match decimalToInt? ys, decimalToInt? ps with
    | some y, some p => some (t, a, y, g, p)
    | _, _ => none
  | _, _, _, _, _ => none

/-- One fully processed `book` entry (extraction, parsing and construction). -/
def bookOfEntry? (e : Entry) : Option Book :=
  match parseBookFields e with
  | none => none
  | some (t, a, y, g, p) => (mkBook t a y g p).toOption

/-- The entry loop of `Library.load`.  Unlike the other two domains, the inner
`except` clause catches only `AttributeError` and `ValueError`: an entry whose
fields parse but whose `Book` construction raises `InvalidInputError` aborts the
whole loop with that error.  No counter of skipped entries is kept. -/
def loadBooks : List Entry → Except LError (List Book)
  | [] => .ok []
  | e :: rest =>
    match parseBookFields e with
    | none => loadBooks rest
    | some (t, a, y, g, p) =>
      match mkBook t a y g p with
      | .error err => .error err
      | .ok b => (loadBooks rest).map (fun bs => b :: bs)

/-- `Library.load` of src/library/storage.py.  On success it reports no skipped
count (the method, unlike the other two, keeps none). -/
def Library.load (lib : Library) (file : FileInput) : Library × Except LError Unit :=
  match file with
  | .absent fn => (lib, .error (.dataFormat fn ("Файл не найден: " ++ fn)))
  | .malformed fn cause =>
      (lib, .error (.dataFormat fn ("Ошибка парсинга XML файла " ++ fn ++ ": " ++ cause)))
  | .doc _ _ root =>
      match loadBooks (findAll root "book") with
      | .error e => (lib, .error e)
      | .ok bs => (⟨sortBooks bs⟩, .ok ())

/-- What `Library.save` writes for one book. -/
def Book.toEntry (b : Book) : Entry :=
  [("title", b.title), ("author", b.author), ("year", intToDecimal b.year),
    ("genre", b.genre), ("pages", intToDecimal b.pages)]

/-- `Library.save` (success path): the document written to `filename`. -/
def Library.save (lib : Library) (filename : String) : FileInput :=
  .doc filename "library" (lib.books.map (fun b => ("book", b.toEntry)))

/-- The `Library` states reachable from a fresh empty library by any sequence of
`add` and `load` calls. -/
inductive LibraryReach : Library → Prop where
  | empty : LibraryReach ⟨[]⟩
  | add (l : Library) (t a : String) (y : Int) (g : String) (p : Int) :
      LibraryReach l → LibraryReach (Library.add l t a y g p).1
  | load (l : Library) (file : FileInput) :
      LibraryReach l → LibraryReach (Library.load l file).1

/-! ### Validity predicates and constructor characterizations -/

/-- The invariant `Person.__post_init__` establishes, relative to the current year. -/
def PersonValid (currentYear : Int) (p : Person) : Prop :=
  1900 ≤ p.year ∧ p.year ≤ currentYear ∧ 1 ≤ p.month ∧ p.month ≤ 12 ∧
    1 ≤ p.day ∧ p.day ≤ daysInMonth p.month p.year

/-- The invariant `Car.__post_init__` establishes. -/
def CarValid (c : Car) : Prop :=
  0 < c.max_speed ∧ 0 ≤ c.current_speed ∧ c.current_speed ≤ c.max_speed

/-- The invariant `Book.__post_init__` establishes. -/
def BookValid (b : Book) : Prop :=
  0 ≤ b.year ∧ b.year ≤ libraryCurrentYear ∧ 0 < b.pages

theorem mkPerson_eq_ok {cy : Int} {ln fn ph : String} {d m y : Int}
    (h : 1900 ≤ y ∧ y ≤ cy ∧ 1 ≤ m ∧ m ≤ 12 ∧ 1 ≤ d ∧ d ≤ daysInMonth m y) :
    mkPerson cy ln fn ph d m y = .ok ⟨ln, fn, ph, d, m, y⟩ := by
  obtain ⟨h1, h2, h3, h4, h5, h6⟩ := h
  rw [mkPerson, if_neg (by omega), if_neg (by omega), if_neg (by omega)]

theorem mkPerson_ok_valid {cy : Int} {ln fn ph : String} {d m y : Int} {p : Person}
    (h : mkPerson cy ln fn ph d m y = .ok p) :
    p = ⟨ln, fn, ph, d, m, y⟩ ∧
      1900 ≤ y ∧ y ≤ cy ∧ 1 ≤ m ∧ m ≤ 12 ∧ 1 ≤ d ∧ d ≤ daysInMonth m y := by
  rw [mkPerson] at h
  split_ifs at h with h1 h2 h3
  exact ⟨((Except.ok.injEq _ _).mp h).symm, by omega, by omega, by omega, by omega,
    by omega, by omega⟩

theorem mkCar_eq_ok {b m lp : String} {ms cs : Int}
    (h : 0 < ms ∧ 0 ≤ cs ∧ cs ≤ ms) :
    mkCar b m lp ms cs = .ok ⟨b, m, lp, ms, cs⟩ := by
  obtain ⟨h1, h2, h3⟩ := h
  rw [mkCar, if_neg (by omega), if_neg (by omega), if_neg (by omega)]

theorem mkCar_ok_valid {b m lp : String} {ms cs : Int} {c : Car}
    (h : mkCar b m lp ms cs = .ok c) :
    c = ⟨b, m, lp, ms, cs⟩ ∧ 0 < ms ∧ 0 ≤ cs ∧ cs ≤ ms := by
  rw [mkCar] at h
  split_ifs at h with h1 h2 h3
  exact ⟨((Except.ok.injEq _ _).mp h).symm, by omega, by omega, by omega⟩

theorem mkBook_eq_ok {t a : String} {y : Int} {g : String} {p : Int}
    (h : 0 ≤ y ∧ y ≤ libraryCurrentYear ∧ 0 < p) :
    mkBook t a y g p = .ok ⟨t, a, y, g, p⟩ := by
  obtain ⟨h1, h2, h3⟩ := h
  rw [mkBook, if_neg (by omega), if_neg (by omega)]

theorem mkBook_ok_valid {t a : String} {y : Int} {g : String} {p : Int} {b : Book}
    (h : mkBook t a y g p = .ok b) :
    b = ⟨t, a, y, g, p⟩ ∧ 0 ≤ y ∧ y ≤ libraryCurrentYear ∧ 0 < p := by
  rw [mkBook] at h
  split_ifs at h with h1 h2
  exact ⟨((Except.ok.injEq _ _).mp h).symm, by omega, by omega, by omega⟩

theorem mkBook_error_shape {t a : String} {y : Int} {g : String} {p : Int} {err : LError}
    (h : mkBook t a y g p = .error err) : ∃ v msg, err = .invalidInput v msg := by
  rw [mkBook] at h
  split_ifs at h with h1 h2
  · exact ⟨y, _, ((Except.error.injEq _ _).mp h).symm⟩
  · exact ⟨p, _, ((Except.error.injEq _ _).mp h).symm⟩

/-! ### Per-entry load lemmas -/

theorem loadPersonEntry_toEntry {cy : Int} {p : Person} (h : PersonValid cy p) :
    loadPersonEntry cy p.toEntry = some p := by
  obtain ⟨h1, h2, h3, h4, h5, h6⟩ := h
  have hfl : entryFind? p.toEntry "last_name" = some p.last_name := rfl
  have hff : entryFind? p.toEntry "first_name" = some p.first_name := rfl
  have hfp : entryFind? p.toEntry "phone" = some p.phone := rfl
  have hfd : entryFind? p.toEntry "day" = some (intToDecimal p.day) := rfl
  have hfm : entryFind? p.toEntry "month" = some (intToDecimal p.month) := rfl
  have hfy : entryFind? p.toEntry "year" = some (intToDecimal p.year) := rfl
  have hd := @decimalToInt?_intToDecimal p.day (by omega)
  have hm := @decimalToInt?_intToDecimal p.month (by omega)
  have hy := @decimalToInt?_intToDecimal p.year (by omega)
  have hmk := @mkPerson_eq_ok cy p.last_name p.first_name p.phone p.day p.month p.year
    ⟨h1, h2, h3, h4, h5, h6⟩
  simp only [loadPersonEntry, hfl, hff, hfp, hfd, hfm, hfy, hd, hm, hy, hmk,
    Except.toOption]

theorem loadCarEntry_toEntry {c : Car} (h : CarValid c) :
    loadCarEntry c.toEntry = some c := by
  obtain ⟨h1, h2, h3⟩ := h
  have hfb : entryFind? c.toEntry "brand" = some c.brand := rfl
  have hfm : entryFind? c.toEntry "model" = some c.model := rfl
  have hfl : entryFind? c.toEntry "license_plate" = some c.license_plate := rfl
  have hfs : entryFind? c.toEntry "max_speed" = some (intToDecimal c.max_speed) := rfl
  have hfc : entryFind? c.toEntry "current_speed" = some (intToDecimal c.current_speed) := rfl
  have hs := @decimalToInt?_intToDecimal c.max_speed (by omega)
  have hc2 := @decimalToInt?_intToDecimal c.current_speed (by omega)
  have hmk := @mkCar_eq_ok c.brand c.model c.license_plate c.max_speed c.current_speed
    ⟨h1, h2, h3⟩
  simp only [loadCarEntry, hfb, hfm, hfl, hfs, hfc, hs, hc2, hmk, Except.toOption]

theorem bookOfEntry?_toEntry {b : Book} (h : BookValid b) :
    bookOfEntry? b.toEntry = some b := by
  obtain ⟨h1, h2, h3⟩ := h
  have hft : entryFind? b.toEntry "title" = some b.title := rfl
  have hfa : entryFind? b.toEntry "author" = some b.author := rfl
  have hfy : entryFind? b.toEntry "year" = some (intToDecimal b.year) := rfl
  have hfg : entryFind? b.toEntry "genre" = some b.genre := rfl
  have hfp : entryFind? b.toEntry "pages" = some (intToDecimal b.pages) := rfl
  have hy := @decimalToInt?_intToDecimal b.year (by omega)
  have hp := @decimalToInt?_intToDecimal b.pages (by omega)
  have hmk := @mkBook_eq_ok b.title b.author b.year b.genre b.pages ⟨h1, h2, h3⟩
  simp only [bookOfEntry?, parseBookFields, hft, hfa, hfy, hfg, hfp, hy, hp, hmk,
    Except.toOption]

theorem loadCarEntry_some_valid {e : Entry} {c : Car} (h : loadCarEntry e = some c) :
    0 < c.max_speed ∧ 0 ≤ c.current_speed ∧ c.current_speed ≤ c.max_speed := by
  rw [loadCarEntry] at h
  split at h
  · rename_i b m lp mss css heq1 heq2 heq3 heq4 heq5
    split at h
    · rename_i ms cs hp1 hp2
      cases hmk : mkCar b m lp ms cs with
      | error err => rw [hmk] at h; simp [Except.toOption] at h
      | ok c0 =>
          rw [hmk] at h
          simp only [Except.toOption, Option.some.injEq] at h
          obtain ⟨rfl, hv⟩ := mkCar_ok_valid hmk
          subst h
          exact ⟨hv.1, hv.2.1, hv.2.2⟩
    · cases h
  · cases h

theorem loadPersonEntry_some_valid {cy : Int} {e : Entry} {p : Person}
    (h : loadPersonEntry cy e = some p) : PersonValid cy p := by
  rw [loadPersonEntry] at h
  split at h
  · rename_i ln fn ph ds ms ys heq1 heq2 heq3 heq4 heq5 heq6
    split at h
    · rename_i d m y hp1 hp2 hp3
      cases hmk : mkPerson cy ln fn ph d m y with
      | error err => rw [hmk] at h; simp [Except.toOption] at h
      | ok p0 =>
          rw [hmk] at h
          simp only [Except.toOption, Option.some.injEq] at h
          obtain ⟨rfl, hv⟩ := mkPerson_ok_valid hmk
          subst h
          exact ⟨hv.1, hv.2.1, hv.2.2.1, hv.2.2.2.1, hv.2.2.2.2.1, hv.2.2.2.2.2⟩
    · cases h
  · cases h

/-! ### List-level lemmas for the loads -/

theorem length_filterMap_eq_countP {α β : Type} (f : α → Option β) (l : List α) :
    (l.filterMap f).length = l.countP (fun x => (f x).isSome) := by
  induction l with
  | nil => rfl
  | cons a l ih =>
      rw [List.filterMap_cons, List.countP_cons]
      cases h : f a <;> simp [h, ih]

theorem findAll_save {α : Type} (tag : String) (f : α → Entry) (l : List α) :
    findAll (l.map (fun x => (tag, f x))) tag = l.map f := by
  rw [findAll, List.filter_map]
  have : (fun c : String × Entry => c.1 == tag) ∘ (fun x => (tag, f x)) = fun _ => true := by
    funext x
    simp
  rw [this, List.filter_true, List.map_map]
  rfl

theorem filterMap_of_forall_some {α β : Type} {f : α → Option β} {g : α → β} {l : List α}
    (h : ∀ x ∈ l, f x = some (g x)) : l.filterMap f = l.map g := by
  induction l with
  | nil => rfl
  | cons a l ih =>
      rw [List.filterMap_cons, h a (List.mem_cons_self a l), List.map_cons,
        ih (fun x hx => h x (List.mem_cons_of_mem a hx))]

theorem countP_none_of_forall_some {α β : Type} {f : α → Option β} {g : α → β} {l : List α}
    (h : ∀ x ∈ l, f x = some (g x)) : l.countP (fun x => (f x).isNone) = 0 := by
  rw [List.countP_eq_zero]
  intro x hx
  rw [h x hx]
  simp

theorem loadBooks_of_no_abort {entries : List Entry}
    (h : ∀ e ∈ entries, ∀ t a y g p, parseBookFields e = some (t, a, y, g, p) →
      ∃ b, mkBook t a y g p = .ok b) :
    loadBooks entries = .ok (entries.filterMap bookOfEntry?) := by
  induction entries with
  | nil => rfl
  | cons e rest ih =>
      have hrest := ih (fun e he => h e (List.mem_cons_of_mem _ he))
      cases hp : parseBookFields e with
      | none =>
          simp only [loadBooks, hp, List.filterMap_cons, bookOfEntry?, hrest]
      | some fields =>
          obtain ⟨t, a, y, g, p⟩ := fields
          obtain ⟨b, hb⟩ := h e (List.mem_cons_self e rest) t a y g p hp
          simp only [loadBooks, hp, hb, List.filterMap_cons, bookOfEntry?, hrest,
            Except.toOption, Except.map]

theorem loadBooks_abort {entries : List Entry}
    (h : ∃ e ∈ entries, ∃ t a y g p err, parseBookFields e = some (t, a, y, g, p) ∧
      mkBook t a y g p = .error err) :
    ∃ v msg, loadBooks entries = .error (.invalidInput v msg) := by
  induction entries with
  | nil => obtain ⟨e, he, _⟩ := h; cases he
  | cons e rest ih =>
      obtain ⟨e0, he0, t, a, y, g, p, err, hp, herr⟩ := h
      rcases List.mem_cons.mp he0 with rfl | hmem
      · obtain ⟨v, msg, hshape⟩ := mkBook_error_shape herr
        refine ⟨v, msg, ?_⟩
        simp only [loadBooks, hp, herr, hshape]
      · cases hp0 : parseBookFields e with
        | none =>
            obtain ⟨v, msg, hl⟩ := ih ⟨e0, hmem, t, a, y, g, p, err, hp, herr⟩
            exact ⟨v, msg, by simp only [loadBooks, hp0, hl]⟩
        | some fields =>
            obtain ⟨t1, a1, y1, g1, p1⟩ := fields
            cases hmk : mkBook t1 a1 y1 g1 p1 with
            | error err1 =>
                obtain ⟨v, msg, hshape⟩ := mkBook_error_shape hmk
                exact ⟨v, msg, by simp only [loadBooks, hp0, hmk, hshape]⟩
            | ok b =>
                obtain ⟨v, msg, hl⟩ := ih ⟨e0, hmem, t, a, y, g, p, err, hp, herr⟩
                exact ⟨v, msg, by simp only [loadBooks, hp0, hmk, hl, Except.map]⟩

/-! ### Sortedness of every reachable collection state -/

theorem birthdayReach_sorted {b : BirthdayBook} (h : BirthdayReach b) :
    b.people.Sorted personLE := by
  induction h with
  | empty => exact List.sorted_nil
  | add cy b ln fn ph d m y hb ih =>
      rw [BirthdayBook.add]
      split_ifs with hmo
      · exact ih
      · cases hmk : mkPerson cy ln fn ph d m y with
        | error e => simpa [hmk] using ih
        | ok p => simpa [hmk, sortPeople] using List.sorted_insertionSort personLE _
  | load cy b file hb ih =>
      cases file with
      | absent fn => exact ih
      | malformed fn cause => exact ih
      | doc fn rt root =>
          simpa [BirthdayBook.load, sortPeople] using List.sorted_insertionSort personLE _

theorem carReach_sorted {r : CarRegistry} (h : CarReach r) :
    r.cars.Sorted carLE := by
  induction h with
  | empty => exact List.sorted_nil
  | add r b m lp ms cs hr ih =>
      rw [CarRegistry.add]
      cases hmk : mkCar b m lp ms cs with
      | error e => simpa [hmk] using ih
      | ok c => simpa [hmk, sortCars] using List.sorted_insertionSort carLE _
  | load r file hr ih =>
      cases file with
      | absent fn => exact ih
      | malformed fn cause => exact ih
      | doc fn rt root =>
          simpa [CarRegistry.load, sortCars] using List.sorted_insertionSort carLE _

theorem libraryReach_sorted {l : Library} (h : LibraryReach l) :
    l.books.Sorted bookLE := by
  induction h with
  | empty => exact List.sorted_nil
  | add l t a y g p hl ih =>
      rw [Library.add]
      cases hmk : mkBook t a y g p with
      | error e => simpa [hmk] using ih
      | ok b => simpa [hmk, sortBooks] using List.sorted_insertionSort bookLE _
  | load l file hl ih =>
      cases file with
      | absent fn => exact ih
      | malformed fn cause => exact ih
      | doc fn rt root =>
          rw [Library.load]
          cases hlb : loadBooks (findAll root "book") with
          | error e => simpa [hlb] using ih
          | ok bs => simpa [hlb, sortBooks] using List.sorted_insertionSort bookLE _

/-! ### Every reachable car satisfies the construction invariant -/

theorem carReach_speed_le {r : CarRegistry} (h : CarReach r) :
    ∀ c ∈ r.cars, c.current_speed ≤ c.max_speed := by
  induction h with
  | empty => intro c hc; cases hc
  | add r b m lp ms cs hr ih =>
      intro c hc
      cases hmk : mkCar b m lp ms cs with
      | error e =>
          simp only [CarRegistry.add, hmk] at hc
          exact ih c hc
      | ok c0 =>
          simp only [CarRegistry.add, hmk, sortCars] at hc
          rw [List.mem_insertionSort] at hc
          rcases List.mem_append.mp hc with hc | hc
          · exact ih c hc
          · obtain ⟨rfl, _, _, hle⟩ : c = c0 ∧ _ := ⟨List.mem_singleton.mp hc, mkCar_ok_valid hmk⟩
            obtain ⟨heq, hv⟩ := mkCar_ok_valid hmk
            rw [heq]
            exact hv.2.2
  | load r file hr ih =>
      cases file with
      | absent fn => exact ih
      | malformed fn cause => exact ih
      | doc fn rt root =>
          intro c hc
          simp only [CarRegistry.load, sortCars] at hc
          rw [List.mem_insertionSort, List.mem_filterMap] at hc
          obtain ⟨e, _, hsome⟩ := hc
          exact (loadCarEntry_some_valid hsome).2.2

/-! ### Stability of the day re-sort in filter_by_month -/

theorem filter_day_orderedInsert (x : Person) (d : Int) :
    ∀ l : List Person, l.Sorted personDayLE →
      (l.orderedInsert personDayLE x).filter (fun y => y.day == d) =
        if x.day = d then x :: l.filter (fun y => y.day == d)
        else l.filter (fun y => y.day == d)
  | [], _ => by
      by_cases hxd : x.day = d <;>
        simp [List.orderedInsert, List.filter_cons, hxd]
  | y :: ys, h => by
      rw [List.orderedInsert]
      by_cases hr : personDayLE x y
      · rw [if_pos hr]
        by_cases hxd : x.day = d <;>
          simp [List.filter_cons, hxd]
      · rw [if_neg hr]
        have hyx : y.day < x.day := by
          rw [personDayLE] at hr
          omega
        have ih := filter_day_orderedInsert x d ys (List.Sorted.of_cons h)
        by_cases hxd : x.day = d
        · have hyd : ¬(y.day = d) := by omega
          simp [List.filter_cons, hyd, ih, hxd]
        · by_cases hyd : y.day = d <;>
            simp [List.filter_cons, hyd, ih, hxd]

theorem filter_day_insertionSort (d : Int) :
    ∀ l : List Person,
      (l.insertionSort personDayLE).filter (fun y => y.day == d) =
        l.filter (fun y => y.day == d)
  | [] => rfl
  | x :: xs => by
      rw [List.insertionSort,
        filter_day_orderedInsert x d _ (List.sorted_insertionSort personDayLE xs)]
      by_cases hxd : x.day = d <;>
        simp [List.filter_cons, hxd, filter_day_insertionSort d xs]

/-! ### Shape of the errors mkPerson can raise -/

theorem mkPerson_error_shape {cy : Int} {ln fn ph : String} {d m y : Int} {err : BError}
    (h : mkPerson cy ln fn ph d m y = .error err) :
    (∃ m0 msg, err = .invalidMonth m0 msg) ∨
      (∃ d0 m0 y0 msg, err = .invalidDate d0 m0 y0 msg) := by
  rw [mkPerson] at h
  split_ifs at h with h1 h2 h3
  · exact Or.inr ⟨d, m, y, _, ((Except.error.injEq _ _).mp h).symm⟩
  · exact Or.inl ⟨m, _, ((Except.error.injEq _ _).mp h).symm⟩
  · exact Or.inr ⟨d, m, y, _, ((Except.error.injEq _ _).mp h).symm⟩

/-! ### Claim theorems -/

/-- C5: Person construction succeeds exactly when year ∈ [1900, current_year],
month ∈ [1,12] and day ∈ [1, days_in_month(month, year)] with the Gregorian
leap-year rule; Feb 29 of 2000 succeeds, Feb 29 of 2001 fails with a date-range
error; any failure is a month-range or date-range error. -/
theorem c5_person_validation (cy : Int) (ln fn ph : String) (d m y : Int) :
    (mkPerson cy ln fn ph d m y = .ok ⟨ln, fn, ph, d, m, y⟩ ↔
      1900 ≤ y ∧ y ≤ cy ∧ 1 ≤ m ∧ m ≤ 12 ∧ 1 ≤ d ∧ d ≤ daysInMonth m y) ∧
    (2001 ≤ cy →
      mkPerson cy ln fn ph 29 2 2000 = .ok ⟨ln, fn, ph, 29, 2, 2000⟩) ∧
    (2001 ≤ cy → ∃ msg,
      mkPerson cy ln fn ph 29 2 2001 = .error (.invalidDate 29 2 2001 msg)) ∧
    (∀ err, mkPerson cy ln fn ph d m y = .error err →
      (∃ m0 msg, err = .invalidMonth m0 msg) ∨
        (∃ d0 m0 y0 msg, err = .invalidDate d0 m0 y0 msg)) := by
  refine ⟨⟨fun h => (mkPerson_ok_valid h).2, mkPerson_eq_ok⟩, ?_, ?_, ?_⟩
  · intro hcy
    exact mkPerson_eq_ok ⟨by omega, by omega, by omega, by omega, by omega, by decide⟩
  · intro hcy
    refine ⟨"День должен быть в диапазоне 1-" ++ toString (daysInMonth 2 2001) ++
      " для месяца " ++ toString (2 : Int), ?_⟩
    rw [mkPerson, if_neg (by omega), if_neg (by omega), if_pos (by decide)]
  · intro err h
    exact mkPerson_error_shape h

/-- Witness for C5 at the spec's own example inputs, with current year 2026. -/
theorem c5_witness :
    mkPerson 2026 "Иванов" "Иван" "555-1234" 29 2 2000 =
      .ok ⟨"Иванов", "Иван", "555-1234", 29, 2, 2000⟩ ∧
    (∃ msg, mkPerson 2026 "Иванов" "Иван" "555-1234" 29 2 2001 =
      .error (.invalidDate 29 2 2001 msg)) ∧
    (1900 ≤ (1990 : Int) ∧ (1990 : Int) ≤ 2026 ∧ 1 ≤ (5 : Int) ∧ (5 : Int) ≤ 12 ∧
      1 ≤ (15 : Int) ∧ (15 : Int) ≤ daysInMonth 5 1990) ∧
    mkPerson 2026 "Иванов" "Иван" "555-1234" 15 5 1990 =
      .ok ⟨"Иванов", "Иван", "555-1234", 15, 5, 1990⟩ :=
  ⟨(c5_person_validation 2026 "Иванов" "Иван" "555-1234" 15 5 1990).2.1 (by norm_num),
    (c5_person_validation 2026 "Иванов" "Иван" "555-1234" 15 5 1990).2.2.1 (by norm_num),
    by decide,
    (c5_person_validation 2026 "Иванов" "Иван" "555-1234" 15 5 1990).1.mpr (by decide)⟩

/-- C6: Car construction checks max-speed positivity, then current-speed
non-negativity, then the speed limit, each with its own error value; for any
positive limit, exceeding it fails with the speed-limit error and equalling it
succeeds. -/
theorem c6_car_validation (b m lp : String) (ms cs : Int) :
    (ms ≤ 0 → mkCar b m lp ms cs =
      .error (.invalidSpeed ms "Максимальная скорость должна быть положительной")) ∧
    (0 < ms → cs < 0 → mkCar b m lp ms cs =
      .error (.invalidSpeed cs "Текущая скорость не может быть отрицательной")) ∧
    (0 < ms → ms < cs → mkCar b m lp ms cs =
      .error (.speedLimitExceeded cs ms (b ++ " " ++ m ++ " (" ++ lp ++ ")"))) ∧
    (0 < ms → cs = ms → mkCar b m lp ms cs = .ok ⟨b, m, lp, ms, cs⟩) ∧
    (∀ s1 s2 : Int, ∀ info,
      CError.invalidSpeed s1 "Максимальная скорость должна быть положительной" ≠
        CError.invalidSpeed s2 "Текущая скорость не может быть отрицательной" ∧
      (∀ msg, CError.invalidSpeed s1 msg ≠ CError.speedLimitExceeded cs ms info)) := by
  refine ⟨?_, ?_, ?_, ?_, ?_⟩
  · intro h
    rw [mkCar, if_pos h]
  · intro h1 h2
    rw [mkCar, if_neg (by omega), if_pos h2]
  · intro h1 h2
    rw [mkCar, if_neg (by omega), if_neg (by omega), if_pos (by omega)]
  · intro h1 h2
    exact mkCar_eq_ok ⟨h1, by omega, by omega⟩
  · intro s1 s2 info
    constructor
    · intro h
      simp only [CError.invalidSpeed.injEq] at h
      exact absurd h.2 (by decide)
    · intro msg h
      exact CError.noConfusion h

/-- Witness for C6 at the spec's example: limit 200, current 250 fails with the
speed-limit error; current 200 succeeds. -/
theorem c6_witness :
    mkCar "BMW" "X5" "A123BC" 200 250 =
      .error (.speedLimitExceeded 250 200 ("BMW" ++ " " ++ "X5" ++ " (" ++ "A123BC" ++ ")")) ∧
    mkCar "BMW" "X5" "A123BC" 200 200 = .ok ⟨"BMW", "X5", "A123BC", 200, 200⟩ :=
  ⟨(c6_car_validation "BMW" "X5" "A123BC" 200 250).2.2.1 (by norm_num) (by norm_num),
    (c6_car_validation "BMW" "X5" "A123BC" 200 200).2.2.2.1 (by norm_num) rfl⟩

/-- C9: Book construction succeeds exactly when 0 ≤ year ≤ the code's fixed
current-year constant (the literal 2024) and pages is positive; the two failure
modes raise `InvalidInputError`. -/
theorem c9_book_validation (t a : String) (y : Int) (g : String) (p : Int) :
    (mkBook t a y g p = .ok ⟨t, a, y, g, p⟩ ↔
      0 ≤ y ∧ y ≤ libraryCurrentYear ∧ 0 < p) ∧
    (y < 0 ∨ y > libraryCurrentYear → mkBook t a y g p =
      .error (.invalidInput y
        ("Год издания должен быть в диапазоне 0-" ++ toString libraryCurrentYear))) ∧
    (0 ≤ y → y ≤ libraryCurrentYear → p ≤ 0 → mkBook t a y g p =
      .error (.invalidInput p "Количество страниц должно быть положительным")) ∧
    libraryCurrentYear = 2024 := by
  refine ⟨⟨fun h => (mkBook_ok_valid h).2, mkBook_eq_ok⟩, ?_, ?_, rfl⟩
  · intro h
    rw [mkBook, if_pos h]
  · intro h1 h2 h3
    rw [mkBook, if_neg (by omega), if_pos h3]

/-- Witness for C9: a 2000/100-page book succeeds, year 2025 and pages 0 fail. -/
theorem c9_witness :
    mkBook "Книга" "Автор" 2000 "Жанр" 100 = .ok ⟨"Книга", "Автор", 2000, "Жанр", 100⟩ ∧
    mkBook "Книга" "Автор" 2025 "Жанр" 100 =
      .error (.invalidInput 2025
        ("Год издания должен быть в диапазоне 0-" ++ toString libraryCurrentYear)) ∧
    mkBook "Книга" "Автор" 2000 "Жанр" 0 =
      .error (.invalidInput 0 "Количество страниц должно быть положительным") :=
  ⟨(c9_book_validation "Книга" "Автор" 2000 "Жанр" 100).1.mpr (by decide),
    (c9_book_validation "Книга" "Автор" 2025 "Жанр" 100).2.1 (by decide),
    (c9_book_validation "Книга" "Автор" 2000 "Жанр" 0).2.2.1 (by decide) (by decide)
      (by decide)⟩

/-- C4 (amended): a failing insert leaves the collection unchanged in all three
domains, and the construction error propagates unmodified for CarRegistry and
Library, and for BirthdayBook whenever the month is in range; for an
out-of-range month BirthdayBook.add raises the month-range error of its own
pre-check (which differs from the construction error when the year is also out
of range, since Person checks the year first). -/
theorem c4_insert_atomic :
    (∀ (reg : CarRegistry) (b m lp : String) (ms cs : Int) (e : CError),
      mkCar b m lp ms cs = .error e →
      CarRegistry.add reg b m lp ms cs = (reg, some e)) ∧
    (∀ (lib : Library) (t a : String) (y : Int) (g : String) (p : Int) (e : LError),
      mkBook t a y g p = .error e →
      Library.add lib t a y g p = (lib, some e)) ∧
    (∀ (cy : Int) (book : BirthdayBook) (ln fn ph : String) (d m y : Int) (e : BError),
      1 ≤ m → m ≤ 12 →
      mkPerson cy ln fn ph d m y = .error e →
      BirthdayBook.add cy book ln fn ph d m y = (book, some e)) ∧
    (∀ (cy : Int) (book : BirthdayBook) (ln fn ph : String) (d m y : Int),
      m < 1 ∨ 12 < m →
      BirthdayBook.add cy book ln fn ph d m y =
        (book, some (.invalidMonth m "Недопустимый номер месяца"))) := by
  refine ⟨?_, ?_, ?_, ?_⟩
  · intro reg b m lp ms cs e h
    simp only [CarRegistry.add, h]
  · intro lib t a y g p e h
    simp only [Library.add, h]
  · intro cy book ln fn ph d m y e h1 h2 h
    rw [BirthdayBook.add, if_neg (by omega)]
    simp only [h]
  · intro cy book ln fn ph d m y h
    rw [BirthdayBook.add, if_pos (by omega)]

/-- Witness for C4: a construction failure (non-positive max speed) propagates
from `CarRegistry.add` with the registry unchanged; same for a Library insert
with pages 0; and a birthday insert with a bad day but in-range month. -/
theorem c4_witness :
    CarRegistry.add ⟨[]⟩ "BMW" "X5" "A1" 0 10 =
      (⟨[]⟩, some (.invalidSpeed 0 "Максимальная скорость должна быть положительной")) ∧
    Library.add ⟨[]⟩ "Книга" "Автор" 2000 "Жанр" 0 =
      (⟨[]⟩, some (.invalidInput 0 "Количество страниц должно быть положительным")) ∧
    BirthdayBook.add 2026 ⟨[]⟩ "Иванов" "Иван" "555" 31 4 1990 =
      (⟨[]⟩, some (.invalidDate 31 4 1990
        ("День должен быть в диапазоне 1-" ++ toString (daysInMonth 4 1990) ++
          " для месяца " ++ toString (4 : Int)))) :=
  ⟨c4_insert_atomic.1 ⟨[]⟩ "BMW" "X5" "A1" 0 10 _ rfl,
    c4_insert_atomic.2.1 ⟨[]⟩ "Книга" "Автор" 2000 "Жанр" 0 _ rfl,
    c4_insert_atomic.2.2.1 2026 ⟨[]⟩ "Иванов" "Иван" "555" 31 4 1990 _
      (by norm_num) (by norm_num)
      (by rw [mkPerson, if_neg (by norm_num), if_neg (by norm_num), if_pos (by decide)])⟩

/-- C4 counterexample: with day 1, month 13, year 1800 (month and year both out
of range) the Person construction error is the year-range `InvalidDateError`,
but `BirthdayBook.add` raises its month pre-check `InvalidMonthError` instead —
so the construction error does not propagate unmodified. -/
theorem c4_counterexample :
    mkPerson 2025 "Иванов" "Иван" "555" 1 13 1800 =
      .error (.invalidDate 1 13 1800 ("Год должен быть в диапазоне 1900-" ++
        toString (2025 : Int))) ∧
    (BirthdayBook.add 2025 ⟨[]⟩ "Иванов" "Иван" "555" 1 13 1800).2 =
      some (.invalidMonth 13 "Недопустимый номер месяца") ∧
    BError.invalidDate 1 13 1800 ("Год должен быть в диапазоне 1900-" ++
        toString (2025 : Int)) ≠
      BError.invalidMonth 13 "Недопустимый номер месяца" :=
  ⟨by rw [mkPerson, if_pos (by norm_num)],
    by rw [BirthdayBook.add, if_pos (by norm_num)],
    fun h => BError.noConfusion h⟩

/-- C7: a load from an absent file or a file that is not well-formed markup
aborts with a single domain `DataFormatError` carrying the path and the
underlying cause, and leaves the collection state exactly unchanged, in all
three domains. -/
theorem c7_structural_failure_aborts :
    (∀ (cy : Int) (book : BirthdayBook) (fn cause : String),
      BirthdayBook.load cy book (.absent fn) =
        (book, .error (.dataFormat fn ("Файл не найден: " ++ fn))) ∧
      BirthdayBook.load cy book (.malformed fn cause) =
        (book, .error (.dataFormat fn
          ("Ошибка парсинга XML файла " ++ fn ++ ": " ++ cause)))) ∧
    (∀ (reg : CarRegistry) (fn cause : String),
      CarRegistry.load reg (.absent fn) =
        (reg, .error (.dataFormat fn ("Файл не найден: " ++ fn))) ∧
      CarRegistry.load reg (.malformed fn cause) =
        (reg, .error (.dataFormat fn
          ("Ошибка парсинга XML файла " ++ fn ++ ": " ++ cause)))) ∧
    (∀ (lib : Library) (fn cause : String),
      Library.load lib (.absent fn) =
        (lib, .error (.dataFormat fn ("Файл не найден: " ++ fn))) ∧
      Library.load lib (.malformed fn cause) =
        (lib, .error (.dataFormat fn
          ("Ошибка парсинга XML файла " ++ fn ++ ": " ++ cause)))) :=
  ⟨fun _ _ _ _ => ⟨rfl, rfl⟩, fun _ _ _ => ⟨rfl, rfl⟩, fun _ _ _ => ⟨rfl, rfl⟩⟩

/-- The ordering C2 claims for the library, following the spec's words:
case-insensitive comparison of titles (stated only to be refuted — the code
sorts books by raw title). -/
def bookLE_ci (a b : Book) : Prop := lowerStr a.title ≤ lowerStr b.title

instance : DecidableRel bookLE_ci := fun a b => inferInstanceAs (Decidable (_ ≤ _))

/-- C2 (amended): every collection state reachable by any sequence of inserts
and loads is sorted by its domain key — Person: last then first name
case-insensitively (`personLE`); Car: brand then model by raw code-point
comparison (`carLE`); Book: title by raw code-point comparison (`bookLE`).
Only the birthday book's key is case-insensitive. -/
theorem c2_sorted_by_domain_key :
    (∀ b : BirthdayBook, BirthdayReach b → b.people.Sorted personLE) ∧
    (∀ r : CarRegistry, CarReach r → r.cars.Sorted carLE) ∧
    (∀ l : Library, LibraryReach l → l.books.Sorted bookLE) :=
  ⟨fun _ h => birthdayReach_sorted h, fun _ h => carReach_sorted h,
    fun _ h => libraryReach_sorted h⟩

/-- Witness for C2: the state after one successful insert into each fresh
collection is sorted by its domain key. -/
theorem c2_witness :
    (BirthdayBook.add 2026 ⟨[]⟩ "Иванов" "Иван" "555" 15 5 1990).1.people.Sorted personLE ∧
    (CarRegistry.add ⟨[]⟩ "BMW" "X5" "A1" 200 100).1.cars.Sorted carLE ∧
    (Library.add ⟨[]⟩ "Книга" "Автор" 2000 "Жанр" 100).1.books.Sorted bookLE :=
  ⟨c2_sorted_by_domain_key.1 _ (.add 2026 ⟨[]⟩ "Иванов" "Иван" "555" 15 5 1990 .empty),
    c2_sorted_by_domain_key.2.1 _ (.add ⟨[]⟩ "BMW" "X5" "A1" 200 100 .empty),
    c2_sorted_by_domain_key.2.2 _ (.add ⟨[]⟩ "Книга" "Автор" 2000 "Жанр" 100 .empty)⟩

/-- C2 counterexample: two successful inserts of books titled "B" and then "a"
leave the library in state ["B", "a"] (code-point order), which is NOT sorted
by case-insensitive title comparison, refuting the claim that title keys are
compared case-insensitively. -/
theorem c2_counterexample :
    (Library.add ⟨[]⟩ "B" "Автор1" 2000 "Жанр" 100).2 = none ∧
    (Library.add (Library.add ⟨[]⟩ "B" "Автор1" 2000 "Жанр" 100).1
      "a" "Автор2" 2000 "Жанр" 100).2 = none ∧
    (Library.add (Library.add ⟨[]⟩ "B" "Автор1" 2000 "Жанр" 100).1
      "a" "Автор2" 2000 "Жанр" 100).1.books =
      [⟨"B", "Автор1", 2000, "Жанр", 100⟩, ⟨"a", "Автор2", 2000, "Жанр", 100⟩] ∧
    ¬ (Library.add (Library.add ⟨[]⟩ "B" "Автор1" 2000 "Жанр" 100).1
      "a" "Автор2" 2000 "Жанр" 100).1.books.Sorted bookLE_ci := by
  have hBa : ("B" : String) ≤ "a" := le_of_lt (by rw [String.lt_iff_toList_lt]; decide)
  have hba : ¬ (("b" : String) ≤ "a") :=
    not_le.mpr (by rw [String.lt_iff_toList_lt]; decide)
  have h1 : Library.add ⟨[]⟩ "B" "Автор1" 2000 "Жанр" 100 =
      (⟨[⟨"B", "Автор1", 2000, "Жанр", 100⟩]⟩, none) := rfl
  have hmk2 : mkBook "a" "Автор2" 2000 "Жанр" 100 =
      .ok ⟨"a", "Автор2", 2000, "Жанр", 100⟩ := rfl
  have h2 : (Library.add (Library.add ⟨[]⟩ "B" "Автор1" 2000 "Жанр" 100).1
      "a" "Автор2" 2000 "Жанр" 100) =
      (⟨[⟨"B", "Автор1", 2000, "Жанр", 100⟩, ⟨"a", "Автор2", 2000, "Жанр", 100⟩]⟩, none) := by
    rw [h1]
    simp only [Library.add, hmk2, sortBooks, List.insertionSort, List.orderedInsert_nil,
      List.orderedInsert]
    rw [if_pos (show bookLE ⟨"B", "Автор1", 2000, "Жанр", 100⟩
      ⟨"a", "Автор2", 2000, "Жанр", 100⟩ from hBa)]
  refine ⟨by rw [h1], by rw [h2], by rw [h2], ?_⟩
  rw [h2]
  intro hsort
  exact hba (List.rel_of_sorted_cons hsort _ (List.mem_singleton_self _))

/-- C10: because construction rejects overspeed, every car held in any reachable
registry state satisfies current_speed ≤ max_speed; consequently
`select_speeding` returns the empty list and no stored car's `speed_status` is
the "exceeded" branch. -/
theorem c10_select_speeding_empty (r : CarRegistry) (h : CarReach r) :
    (∀ c ∈ r.cars, c.current_speed ≤ c.max_speed) ∧
    r.select_speeding = [] ∧
    (∀ c ∈ r.cars, c.speed_status ≠ "ПРЕВЫШЕНИЕ") := by
  have hv := carReach_speed_le h
  refine ⟨hv, ?_, ?_⟩
  · rw [CarRegistry.select_speeding]
    have hnil : r.cars.filter Car.is_speeding = [] := by
      rw [List.filter_eq_nil_iff]
      intro c hc
      have := hv c hc
      simp only [Car.is_speeding, decide_eq_true_eq]
      omega
    rw [hnil]
    rfl
  · intro c hc
    have := hv c hc
    rw [Car.speed_status,
      if_neg (show ¬ (c.current_speed > c.max_speed) by omega)]
    split_ifs <;> decide

/-- Witness for C10: a registry reached by one insert has no speeding cars. -/
theorem c10_witness :
    (CarRegistry.add ⟨[]⟩ "BMW" "X5" "A1" 200 100).1.select_speeding = [] ∧
    (∀ c ∈ (CarRegistry.add ⟨[]⟩ "BMW" "X5" "A1" 200 100).1.cars,
      c.speed_status ≠ "ПРЕВЫШЕНИЕ") :=
  ⟨(c10_select_speeding_empty _ (.add ⟨[]⟩ "BMW" "X5" "A1" 200 100 .empty)).2.1,
    (c10_select_speeding_empty _ (.add ⟨[]⟩ "BMW" "X5" "A1" 200 100 .empty)).2.2⟩

/-- C8: for a month in [1,12], filter_by_month returns exactly the persons born
in that month, sorted by day ascending, stably (for each day value the
subsequence of that day equals the original filtered subsequence, i.e. original
relative order); the collection itself is a pure input of the operation.  For a
month outside [1,12] it fails with the month-range error. -/
theorem c8_month_filter (book : BirthdayBook) (m : Int) :
    (∀ result, book.filter_by_month m = .ok result →
      (∀ p, p ∈ result ↔ p ∈ book.people ∧ p.month = m) ∧
      result.Sorted personDayLE ∧
      result.Perm (book.people.filter (fun p => p.month == m)) ∧
      (∀ d : Int, result.filter (fun p => p.day == d) =
        (book.people.filter (fun p => p.month == m)).filter (fun p => p.day == d))) ∧
    (1 ≤ m → m ≤ 12 → ∃ result, book.filter_by_month m = .ok result) ∧
    (m < 1 ∨ 12 < m → book.filter_by_month m =
      .error (.invalidMonth m "Недопустимый номер месяца")) := by
  refine ⟨?_, ?_, ?_⟩
  · intro result hres
    rw [BirthdayBook.filter_by_month] at hres
    split_ifs at hres with hm
    have hr := (Except.ok.injEq _ _).mp hres
    subst hr
    refine ⟨?_, List.sorted_insertionSort _ _, List.perm_insertionSort _ _,
      fun d => filter_day_insertionSort d _⟩
    intro p
    rw [List.mem_insertionSort, List.mem_filter]
    simp
  · intro h1 h2
    exact ⟨_, by rw [BirthdayBook.filter_by_month, if_neg (by omega)]⟩
  · intro h
    rw [BirthdayBook.filter_by_month, if_pos (by omega)]

/-- Witness for C8: on a book with two May birthdays (days 20 then 15) and one
March one, the month-5 filter returns exactly the May people ordered by day,
and the filter rejects month 13. -/
theorem c8_witness :
    BirthdayBook.filter_by_month
      ⟨[⟨"Иванов", "И", "1", 20, 5, 1990⟩, ⟨"Петров", "П", "1", 15, 5, 1992⟩,
        ⟨"Сидоров", "С", "1", 1, 3, 1990⟩]⟩ 5 =
      .ok [⟨"Петров", "П", "1", 15, 5, 1992⟩, ⟨"Иванов", "И", "1", 20, 5, 1990⟩] ∧
    ([⟨"Петров", "П", "1", 15, 5, 1992⟩, ⟨"Иванов", "И", "1", 20, 5, 1990⟩] :
      List Person).Sorted personDayLE ∧
    BirthdayBook.filter_by_month ⟨[]⟩ 13 =
      .error (.invalidMonth 13 "Недопустимый номер месяца") :=
  ⟨by rfl,
    ((c8_month_filter
      ⟨[⟨"Иванов", "И", "1", 20, 5, 1990⟩, ⟨"Петров", "П", "1", 15, 5, 1992⟩,
        ⟨"Сидоров", "С", "1", 1, 3, 1990⟩]⟩ 5).1
      [⟨"Петров", "П", "1", 15, 5, 1992⟩, ⟨"Иванов", "И", "1", 20, 5, 1990⟩]
      (by rfl)).2.1,
    (c8_month_filter ⟨[]⟩ 13).2.2 (by norm_num)⟩

theorem except_toOption_eq_some {ε α : Type} {x : Except ε α} {a : α}
    (h : x.toOption = some a) : x = .ok a := by
  cases x with
  | error e => simp [Except.toOption] at h
  | ok v => simpa [Except.toOption] using h

theorem roundtrip_list {α : Type} (f : α → Entry) (g : Entry → Option α) (l : List α)
    (h : ∀ x ∈ l, g (f x) = some x) :
    (l.map f).filterMap g = l ∧ (l.map f).countP (fun e => (g e).isNone) = 0 := by
  induction l with
  | nil => exact ⟨rfl, rfl⟩
  | cons a l ih =>
      obtain ⟨ih1, ih2⟩ := ih (fun x hx => h x (List.mem_cons_of_mem _ hx))
      have ha := h a (List.mem_cons_self a l)
      rw [List.map_cons, List.filterMap_cons, List.countP_cons, ha, ih1, ih2]
      simp

/-- C3: for a collection of valid records in its resting (sorted) order, saving
and loading into a fresh empty collection reproduces the same records with the
same field values in the same order, with zero entries skipped, in all three
domains. -/
theorem c3_save_load_roundtrip :
    (∀ (cy : Int) (book : BirthdayBook) (fn : String),
      book.people.Sorted personLE → (∀ p ∈ book.people, PersonValid cy p) →
      BirthdayBook.load cy ⟨[]⟩ (book.save fn) = (book, .ok 0)) ∧
    (∀ (reg : CarRegistry) (fn : String),
      reg.cars.Sorted carLE → (∀ c ∈ reg.cars, CarValid c) →
      CarRegistry.load ⟨[]⟩ (reg.save fn) = (reg, .ok 0)) ∧
    (∀ (lib : Library) (fn : String),
      lib.books.Sorted bookLE → (∀ b ∈ lib.books, BookValid b) →
      Library.load ⟨[]⟩ (lib.save fn) = (lib, .ok ())) := by
  refine ⟨?_, ?_, ?_⟩
  · intro cy book fn hs hv
    simp only [BirthdayBook.save, BirthdayBook.load]
    rw [findAll_save]
    obtain ⟨h1, h2⟩ := roundtrip_list Person.toEntry (loadPersonEntry cy) book.people
      (fun p hp => loadPersonEntry_toEntry (hv p hp))
    rw [h1, h2]
    simp only [sortPeople]
    rw [hs.insertionSort_eq]
  · intro reg fn hs hv
    simp only [CarRegistry.save, CarRegistry.load]
    rw [findAll_save]
    obtain ⟨h1, h2⟩ := roundtrip_list Car.toEntry loadCarEntry reg.cars
      (fun c hc => loadCarEntry_toEntry (hv c hc))
    rw [h1, h2]
    simp only [sortCars]
    rw [hs.insertionSort_eq]
  · intro lib fn hs hv
    simp only [Library.save, Library.load]
    rw [findAll_save]
    have hno : ∀ e ∈ lib.books.map Book.toEntry, ∀ t a y g p,
        parseBookFields e = some (t, a, y, g, p) → ∃ b, mkBook t a y g p = .ok b := by
      intro e he t a y g p hp
      rw [List.mem_map] at he
      obtain ⟨b0, hb0, rfl⟩ := he
      have hbe := bookOfEntry?_toEntry (hv b0 hb0)
      rw [bookOfEntry?, hp] at hbe
      exact ⟨b0, except_toOption_eq_some hbe⟩
    rw [loadBooks_of_no_abort hno]
    obtain ⟨h1, h2⟩ := roundtrip_list Book.toEntry bookOfEntry? lib.books
      (fun b hb => bookOfEntry?_toEntry (hv b hb))
    rw [h1]
    simp only [sortBooks]
    rw [hs.insertionSort_eq]

/-- Witness for C3: one-record collections in each domain survive the save/load
round trip unchanged with zero skipped entries. -/
theorem c3_witness :
    BirthdayBook.load 2026 ⟨[]⟩
        (BirthdayBook.save ⟨[⟨"Иванов", "Иван", "555", 15, 5, 1990⟩]⟩ "b.xml") =
      (⟨[⟨"Иванов", "Иван", "555", 15, 5, 1990⟩]⟩, .ok 0) ∧
    CarRegistry.load ⟨[]⟩ (CarRegistry.save ⟨[⟨"BMW", "X5", "A1", 200, 100⟩]⟩ "c.xml") =
      (⟨[⟨"BMW", "X5", "A1", 200, 100⟩]⟩, .ok 0) ∧
    Library.load ⟨[]⟩ (Library.save ⟨[⟨"Книга", "Автор", 2000, "Жанр", 100⟩]⟩ "l.xml") =
      (⟨[⟨"Книга", "Автор", 2000, "Жанр", 100⟩]⟩, .ok ()) :=
  ⟨c3_save_load_roundtrip.1 2026 ⟨[⟨"Иванов", "Иван", "555", 15, 5, 1990⟩]⟩ "b.xml"
      (List.sorted_singleton _)
      (fun p hp => by rw [List.mem_singleton] at hp; subst hp; unfold PersonValid; decide),
    c3_save_load_roundtrip.2.1 ⟨[⟨"BMW", "X5", "A1", 200, 100⟩]⟩ "c.xml"
      (List.sorted_singleton _)
      (fun c hc => by rw [List.mem_singleton] at hc; subst hc; unfold CarValid; decide),
    c3_save_load_roundtrip.2.2 ⟨[⟨"Книга", "Автор", 2000, "Жанр", 100⟩]⟩ "l.xml"
      (List.sorted_singleton _)
      (fun b hb => by rw [List.mem_singleton] at hb; subst hb; unfold BookValid; decide)⟩

/-- C1 (amended): for BirthdayBook and CarRegistry a load of a well-formed
tagged file with N well-formed and M malformed entries (an entry is malformed
when a field is missing, a numeric field does not parse, or Record validation
fails) loads exactly the N well-formed entries and reports M skipped.  For
Library, entries whose fields fail to extract or parse are skipped but no
skipped count is kept or reported (the result carries no count), and an entry
that parses but fails Book validation aborts the whole load with that
`InvalidInputError`. -/
theorem c1_load_tolerance :
    (∀ (cy : Int) (book : BirthdayBook) (fn rt : String) (root : Doc) (N M : Nat),
      (findAll root "person").countP (fun e => (loadPersonEntry cy e).isSome) = N →
      (findAll root "person").countP (fun e => (loadPersonEntry cy e).isNone) = M →
      (BirthdayBook.load cy book (.doc fn rt root)).1.people.length = N ∧
        (BirthdayBook.load cy book (.doc fn rt root)).2 = .ok M) ∧
    (∀ (reg : CarRegistry) (fn rt : String) (root : Doc) (N M : Nat),
      (findAll root "car").countP (fun e => (loadCarEntry e).isSome) = N →
      (findAll root "car").countP (fun e => (loadCarEntry e).isNone) = M →
      (CarRegistry.load reg (.doc fn rt root)).1.cars.length = N ∧
        (CarRegistry.load reg (.doc fn rt root)).2 = .ok M) ∧
    (∀ (lib : Library) (fn rt : String) (root : Doc) (N : Nat),
      (∀ e ∈ findAll root "book", ∀ t a y g p, parseBookFields e = some (t, a, y, g, p) →
        ∃ b, mkBook t a y g p = .ok b) →
      (findAll root "book").countP (fun e => (bookOfEntry? e).isSome) = N →
      (Library.load lib (.doc fn rt root)).1.books.length = N ∧
        (Library.load lib (.doc fn rt root)).2 = .ok ()) ∧
    (∀ (lib : Library) (fn rt : String) (root : Doc),
      (∃ e ∈ findAll root "book", ∃ t a y g p err,
        parseBookFields e = some (t, a, y, g, p) ∧ mkBook t a y g p = .error err) →
      ∃ v msg, Library.load lib (.doc fn rt root) =
        (lib, .error (.invalidInput v msg))) := by
  refine ⟨?_, ?_, ?_, ?_⟩
  · intro cy book fn rt root N M hN hM
    constructor
    · simp only [BirthdayBook.load, sortPeople]
      rw [List.length_insertionSort, length_filterMap_eq_countP, hN]
    · simp only [BirthdayBook.load]
      rw [hM]
  · intro reg fn rt root N M hN hM
    constructor
    · simp only [CarRegistry.load, sortCars]
      rw [List.length_insertionSort, length_filterMap_eq_countP, hN]
    · simp only [CarRegistry.load]
      rw [hM]
  · intro lib fn rt root N hno hN
    have hok := loadBooks_of_no_abort hno
    constructor
    · simp only [Library.load, hok, sortBooks]
      rw [List.length_insertionSort, length_filterMap_eq_countP, hN]
    · simp only [Library.load, hok]
  · intro lib fn rt root hex
    obtain ⟨v, msg, habort⟩ := loadBooks_abort hex
    exact ⟨v, msg, by simp only [Library.load, habort]⟩

/-- Witness for C1: a birthday file with one well-formed entry, one entry with
a missing phone field and one entry with a non-numeric day loads exactly one
record and reports two skipped. -/
theorem c1_witness :
    (BirthdayBook.load 2026 ⟨[]⟩ (.doc "b.xml" "birthdays"
      [("person", [("last_name", "Иванов"), ("first_name", "Иван"), ("phone", "555"),
        ("day", "15"), ("month", "5"), ("year", "1990")]),
       ("person", [("last_name", "Петров"), ("first_name", "П"),
        ("day", "1"), ("month", "2"), ("year", "1990")]),
       ("person", [("last_name", "Сидоров"), ("first_name", "С"), ("phone", "1"),
        ("day", "abc"), ("month", "2"), ("year", "1990")])])).1.people.length = 1 ∧
    (BirthdayBook.load 2026 ⟨[]⟩ (.doc "b.xml" "birthdays"
      [("person", [("last_name", "Иванов"), ("first_name", "Иван"), ("phone", "555"),
        ("day", "15"), ("month", "5"), ("year", "1990")]),
       ("person", [("last_name", "Петров"), ("first_name", "П"),
        ("day", "1"), ("month", "2"), ("year", "1990")]),
       ("person", [("last_name", "Сидоров"), ("first_name", "С"), ("phone", "1"),
        ("day", "abc"), ("month", "2"), ("year", "1990")])])).2 = .ok 2 :=
  c1_load_tolerance.1 2026 ⟨[]⟩ "b.xml" "birthdays"
    [("person", [("last_name", "Иванов"), ("first_name", "Иван"), ("phone", "555"),
      ("day", "15"), ("month", "5"), ("year", "1990")]),
     ("person", [("last_name", "Петров"), ("first_name", "П"),
      ("day", "1"), ("month", "2"), ("year", "1990")]),
     ("person", [("last_name", "Сидоров"), ("first_name", "С"), ("phone", "1"),
      ("day", "abc"), ("month", "2"), ("year", "1990")])]
    1 2 (by decide) (by decide)

/-- C1 counterexample: a library file with one well-formed book entry and one
entry whose pages field parses to 0 (a Record-validation failure) does not load
the well-formed entry and report one skipped — the whole load aborts with the
validation error and the library stays empty. -/
theorem c1_counterexample :
    bookOfEntry? [("title", "T1"), ("author", "A1"), ("year", "2000"),
      ("genre", "G1"), ("pages", "100")] = some ⟨"T1", "A1", 2000, "G1", 100⟩ ∧
    Library.load ⟨[]⟩ (.doc "books.xml" "library"
      [("book", [("title", "T1"), ("author", "A1"), ("year", "2000"),
        ("genre", "G1"), ("pages", "100")]),
       ("book", [("title", "T2"), ("author", "A2"), ("year", "2000"),
        ("genre", "G2"), ("pages", "0")])]) =
      (⟨[]⟩, .error (.invalidInput 0 "Количество страниц должно быть положительным")) :=
  ⟨rfl, rfl⟩
